import Mathlib

/-!
Shallow embedding of the conversation-state core of the
telegram-google-studio-bot repository.

The embedding covers `MessageProcessor` from `src/message_handler.py`
(the two dictionaries `conversations` and `last_activity`, and the
operations `_get_conversation_history`, `_update_conversation`,
`clear_conversation`, `_cleanup_old_conversations`,
`get_conversation_stats`, `process_message`) and the context / reply
construction of `GoogleStudioClient` from `src/google_studio_client.py`
(`_build_context`, `generate_response`).

Python dictionaries keyed by user id are modelled as association lists
`List (Nat × α)`; `datetime` values are modelled as rational seconds;
the remote model call is an oracle parameter.
-/

namespace TgBot

/-! ### Association-list dictionaries (model of the Python `dict`) -/

/-- Lookup of a key, first match wins (Python `d[k]` / `d.get(k)`). -/
def klookup (k : Nat) : List (Nat × α) → Option α
  | [] => none
  | p :: rest => if p.1 = k then some p.2 else klookup k rest

/-- `d[k] = v`: replace the value in place when the key is present,
append the binding at the end otherwise (Python dict update/insert). -/
def kinsert (k : Nat) (v : α) : List (Nat × α) → List (Nat × α)
  | [] => [(k, v)]
  | p :: rest => if p.1 = k then (k, v) :: rest else p :: kinsert k v rest

/-- `del d[k]` guarded by `if k in d` (removal is a no-op when absent). -/
def kerase (k : Nat) (l : List (Nat × α)) : List (Nat × α) :=
  l.filter (fun p => decide (p.1 ≠ k))

/-- `k in d` membership test. -/
def kmem (k : Nat) (l : List (Nat × α)) : Bool :=
  (klookup k l).isSome

/-! ### Data model -/

/-- The `role` tag of one stored message. -/
inductive Role where
  | user
  | assistant
deriving DecidableEq

/-- One entry of a conversation log: the dict
`{'role': ..., 'content': ..., 'timestamp': ...}` built in
`_update_conversation`. -/
structure Exch where
  role : Role
  content : String
  timestamp : ℚ
deriving DecidableEq

/-- The mutable state of a `MessageProcessor`: the `conversations`
dictionary (user id to message list) and the `last_activity` dictionary
(user id to timestamp). -/
structure PState where
  conversations : List (Nat × List Exch)
  last_activity : List (Nat × ℚ)
deriving DecidableEq

/-- The state right after `MessageProcessor.__init__`: both maps empty. -/
def initState : PState := ⟨[], []⟩

/-- `self.timeout_minutes = int(os.getenv('CONVERSATION_TIMEOUT', '3600')) / 60`:
the configured timeout in seconds divided by 60. -/
def timeout_minutes_of (conversation_timeout : ℚ) : ℚ :=
  conversation_timeout / 60

/-- `max_history = 50` from `_update_conversation`. -/
def max_history : Nat := 50

/-! ### Store operations (`MessageProcessor`) -/

/-- `_get_conversation_history(user_id)`: create an empty log when the
user is unknown, then return the user's log.  Returns the history
together with the updated state. -/
def get_conversation_history (s : PState) (user_id : Nat) :
    List Exch × PState :=
  match klookup user_id s.conversations with
  | some h => (h, s)
  | none => ([], { s with conversations := s.conversations ++ [(user_id, [])] })

/-- The trim at the end of `_update_conversation`:
`if len(l) > max_history: l = l[-max_history:]`. -/
def trimLog (l : List Exch) : List Exch :=
  if l.length > max_history then l.drop (l.length - max_history) else l

/-- `_update_conversation(user_id, user_message, ai_response)`: append the
user entry (timestamp `t1`), append the assistant entry (timestamp `t2`),
set `last_activity[user_id]` (timestamp `t3`), trim the log to the last
`max_history` entries.  The three timestamps stand for the three
`datetime.now()` calls made during the operation. -/
def update_conversation (s : PState) (user_id : Nat)
    (user_message ai_response : String) (t1 t2 t3 : ℚ) : PState :=
  let base := (klookup user_id s.conversations).getD []
  let log := trimLog (base ++
    [⟨Role.user, user_message, t1⟩, ⟨Role.assistant, ai_response, t2⟩])
  { conversations := kinsert user_id log s.conversations
    last_activity := kinsert user_id t3 s.last_activity }

/-- `clear_conversation(user_id)`: delete the user from both maps
(each delete guarded by a membership test, so it never fails). -/
def clear_conversation (s : PState) (user_id : Nat) : PState :=
  { conversations := kerase user_id s.conversations
    last_activity := kerase user_id s.last_activity }

/-- `_cleanup_old_conversations()`: compute
`cutoff_time = now - timedelta(minutes=tm)`, collect every user of
`last_activity` whose timestamp is strictly older, then delete those
users from both maps.  `now` and timestamps are rational seconds, so
`timedelta(minutes=tm)` is `tm * 60` seconds. -/
def cleanup_old_conversations (s : PState) (now tm : ℚ) : PState :=
  let cutoff_time := now - tm * 60
  let users_to_remove :=
    (s.last_activity.filter (fun p => decide (p.2 < cutoff_time))).map Prod.fst
  { conversations :=
      s.conversations.filter (fun p => decide (p.1 ∉ users_to_remove))
    last_activity :=
      s.last_activity.filter (fun p => decide (p.1 ∉ users_to_remove)) }

/-- `get_conversation_stats()`: number of active users, total stored
messages, and the average (0 when there are no active users). -/
def get_conversation_stats (s : PState) : Nat × Nat × ℚ :=
  let active_users := s.conversations.length
  let total_messages := (s.conversations.map (fun p => p.2.length)).sum
  (active_users, total_messages,
    if active_users > 0 then (total_messages : ℚ) / (active_users : ℚ) else 0)

/-! ### Gateway client (`GoogleStudioClient`) -/

/-- The system prompt appended first in `_build_context` (the three
adjacent Python string literals, concatenated). -/
def systemPrompt : String :=
  "You are a helpful AI assistant in a Telegram chat. Respond naturally and helpfully to user messages. Keep responses concise but informative.\n"

/-- One iteration of the history loop in `_build_context`: a
role-tagged line. -/
def roleLine (m : Exch) : String :=
  match m.role with
  | Role.user => "User: " ++ m.content
  | Role.assistant => "Assistant: " ++ m.content

/-- `_build_context(current_prompt, conversation_history)`: the raw
prompt when the history is `None` or empty; otherwise the system prompt,
the last 10 history entries as role-tagged lines, the new `User:` line
and the trailing `Assistant:` cue, joined by newlines.
(`history[-10:]` is `drop (length - 10)`.) -/
def build_context (current_prompt : String)
    (conversation_history : Option (List Exch)) : String :=
  match conversation_history with
  | none => current_prompt
  | some h =>
    if h = [] then current_prompt
    else
      let recent_history := h.drop (h.length - 10)
      String.intercalate "\n"
        (systemPrompt :: (recent_history.map roleLine ++
          ["User: " ++ current_prompt, "Assistant:"]))

/-- Outcome of the remote `generate_content_async` call: an exception,
or a response whose `.text` is `None` or a string. -/
inductive GenOutcome where
  | raised
  | returned (text : Option String)

/-- Reply when `response.text` is falsy (empty or missing). -/
def emptyResponseMsg : String :=
  "I'm sorry, I couldn't generate a response. Please try rephrasing your message."

/-- Reply when the generation call raises. -/
def techDifficultiesMsg : String :=
  "I'm experiencing technical difficulties. Please try again later."

/-- Reply of `process_message` when its body raises. -/
def processErrorMsg : String :=
  "Sorry, I encountered an error while processing your message. Please try again."

/-- `generate_response(prompt, conversation_history)`: build the context,
call the model (`gen` is the oracle mapping the context to an outcome),
return the stripped text on success, a fixed message when the text is
falsy, and a fixed message when anything in the body raises. -/
def generate_response (gen : String → GenOutcome) (prompt : String)
    (conversation_history : Option (List Exch)) : String :=
  let full_context := build_context prompt conversation_history
  match gen full_context with
  | GenOutcome.raised => techDifficultiesMsg
  | GenOutcome.returned none => emptyResponseMsg
  | GenOutcome.returned (some t) =>
      if t = "" then emptyResponseMsg else t.trim

/-! ### Orchestration (`process_message`) -/

/-- `process_message(user_id, message)`: sweep expired sessions, fetch
(or create) the history, call the client, and on success store the new
exchange and return the reply.  `client` stands for
`await self.client.generate_response(message, conversation_history)`;
an `Except.error` is an exception from that call, caught by the
surrounding `try`, which answers with the fixed apology and leaves the
state as already mutated. -/
def process_message (s : PState) (user_id : Nat) (message : String)
    (client : String → List Exch → Except Unit String)
    (now tm t1 t2 t3 : ℚ) : String × PState :=
  let s1 := cleanup_old_conversations s now tm
  let hist := get_conversation_history s1 user_id
  match client message hist.1 with
  | Except.error _ => (processErrorMsg, hist.2)
  | Except.ok response =>
      (response, update_conversation hist.2 user_id message response t1 t2 t3)

/-! ### Reachable states -/

/-- One externally triggerable operation on the processor state. -/
inductive Op where
  | getHist (user_id : Nat)
  | append (user_id : Nat) (user_message ai_response : String) (t1 t2 t3 : ℚ)
  | clear (user_id : Nat)
  | sweep (now tm : ℚ)
  | process (user_id : Nat) (message : String) (res : Except Unit String)
      (now tm t1 t2 t3 : ℚ)

/-- Effect of one operation on the state. -/
def step (s : PState) : Op → PState
  | Op.getHist u => (get_conversation_history s u).2
  | Op.append u um ar t1 t2 t3 => update_conversation s u um ar t1 t2 t3
  | Op.clear u => clear_conversation s u
  | Op.sweep now tm => cleanup_old_conversations s now tm
  | Op.process u msg res now tm t1 t2 t3 =>
      (process_message s u msg (fun _ _ => res) now tm t1 t2 t3).2

/-- State after a sequence of operations from a fresh processor. -/
def run (ops : List Op) : PState :=
  ops.foldl step initState

/-! ### Dictionary lemmas -/

theorem klookup_kinsert_self (k : Nat) (v : α) (l : List (Nat × α)) :
    klookup k (kinsert k v l) = some v := by
  induction l with
  | nil => simp [kinsert, klookup]
  | cons p rest ih =>
    by_cases h : p.1 = k
    · simp [kinsert, h, klookup]
    · simp [kinsert, h, klookup, ih]

theorem klookup_kinsert_ne (k k' : Nat) (v : α) (l : List (Nat × α))
    (h : k' ≠ k) : klookup k (kinsert k' v l) = klookup k l := by
  induction l with
  | nil => simp [kinsert, klookup, h]
  | cons p rest ih =>
    by_cases hp : p.1 = k'
    · simp [kinsert, hp, klookup, h, ih]
    · simp [kinsert, hp, klookup, ih]

theorem klookup_filter_key (q : Nat → Bool) (k : Nat) (l : List (Nat × α)) :
    klookup k (l.filter (fun p => q p.1)) =
      if q k then klookup k l else none := by
  induction l with
  | nil => simp [klookup]
  | cons p rest ih =>
    by_cases hk : p.1 = k
    · subst hk
      by_cases hq : q p.1 <;> simp [List.filter_cons, hq, klookup, ih]
    · by_cases hq : q p.1 <;> simp [List.filter_cons, hq, klookup, hk, ih]

theorem klookup_append_of_none (k : Nat) (l1 l2 : List (Nat × α))
    (h : klookup k l1 = none) : klookup k (l1 ++ l2) = klookup k l2 := by
  induction l1 with
  | nil => simp
  | cons p rest ih =>
    by_cases hp : p.1 = k
    · simp [klookup, hp] at h
    · simp [klookup, hp] at h ⊢
      exact ih h

theorem klookup_append_of_some (k : Nat) (l1 l2 : List (Nat × α)) (v : α)
    (h : klookup k l1 = some v) : klookup k (l1 ++ l2) = some v := by
  induction l1 with
  | nil => simp [klookup] at h
  | cons p rest ih =>
    by_cases hp : p.1 = k
    · simp [klookup, hp] at h ⊢
      exact h
    · simp [klookup, hp] at h ⊢
      exact ih h

theorem klookup_eq_none_iff (k : Nat) (l : List (Nat × α)) :
    klookup k l = none ↔ k ∉ l.map Prod.fst := by
  induction l with
  | nil => simp [klookup]
  | cons p rest ih =>
    by_cases hp : p.1 = k
    · simp [klookup, hp]
    · simp [klookup, hp, ih]
      intro h
      exact fun hh => hp hh.symm

theorem mem_of_klookup_eq_some (k : Nat) (l : List (Nat × α)) (v : α)
    (h : klookup k l = some v) : (k, v) ∈ l := by
  induction l with
  | nil => simp [klookup] at h
  | cons p rest ih =>
    by_cases hp : p.1 = k
    · simp [klookup, hp] at h
      have hkv : (k, v) = p := by
        cases p
        simp_all
      rw [hkv]
      exact List.mem_cons_self _ _
    · simp [klookup, hp] at h
      exact List.mem_cons_of_mem _ (ih h)

theorem klookup_eq_some_of_mem_nodup (k : Nat) (l : List (Nat × α)) (v : α)
    (hnd : (l.map Prod.fst).Nodup) (hm : (k, v) ∈ l) :
    klookup k l = some v := by
  induction l with
  | nil => simp at hm
  | cons p rest ih =>
    rw [List.map_cons, List.nodup_cons] at hnd
    rcases List.mem_cons.mp hm with hm | hm
    · rw [← hm]
      simp [klookup]
    · have hp : p.1 ≠ k := by
        intro he
        exact hnd.1 (he ▸ List.mem_map_of_mem Prod.fst hm)
      simp [klookup, hp]
      exact ih hnd.2 hm

theorem klookup_append_isSome (k : Nat) (l1 l2 : List (Nat × α))
    (h : (klookup k l1).isSome = true) :
    (klookup k (l1 ++ l2)).isSome = true := by
  obtain ⟨v, hv⟩ := Option.isSome_iff_exists.mp h
  rw [klookup_append_of_some k l1 l2 v hv]
  rfl

theorem klookup_kerase (k k' : Nat) (l : List (Nat × α)) :
    klookup k (kerase k' l) = if k = k' then none else klookup k l := by
  unfold kerase
  rw [klookup_filter_key (fun x => decide (x ≠ k')) k l]
  by_cases h : k = k' <;> simp [h]

theorem klookup_filter_not_mem (rem : List Nat) (k : Nat) (l : List (Nat × α)) :
    klookup k (l.filter (fun p => decide (p.1 ∉ rem))) =
      if k ∈ rem then none else klookup k l := by
  rw [klookup_filter_key (fun x => decide (x ∉ rem)) k l]
  by_cases h : k ∈ rem <;> simp [h]

/-! ### The one-directional lockstep invariant -/

/-- Every user with a last-activity record also has a conversation log. -/
def laSubConv (s : PState) : Prop :=
  ∀ u, (klookup u s.last_activity).isSome = true →
    (klookup u s.conversations).isSome = true

theorem laSubConv_getHist (s : PState) (u : Nat) (h : laSubConv s) :
    laSubConv (get_conversation_history s u).2 := by
  cases hc : klookup u s.conversations with
  | some l =>
    simpa [get_conversation_history, hc] using h
  | none =>
    intro u' hu'
    simp only [get_conversation_history, hc] at hu' ⊢
    exact klookup_append_isSome u' s.conversations [(u, [])] (h u' hu')

theorem laSubConv_update (s : PState) (u : Nat) (um ar : String)
    (t1 t2 t3 : ℚ) (h : laSubConv s) :
    laSubConv (update_conversation s u um ar t1 t2 t3) := by
  intro u' hu'
  simp only [update_conversation] at hu' ⊢
  by_cases he : u = u'
  · subst he
    rw [klookup_kinsert_self]
    rfl
  · rw [klookup_kinsert_ne u' u _ _ he] at hu'
    rw [klookup_kinsert_ne u' u _ _ he]
    exact h u' hu'

theorem laSubConv_clear (s : PState) (u : Nat) (h : laSubConv s) :
    laSubConv (clear_conversation s u) := by
  intro u' hu'
  simp only [clear_conversation] at hu' ⊢
  rw [klookup_kerase] at hu'
  rw [klookup_kerase]
  by_cases he : u' = u
  · simp [he] at hu'
  · simp only [he, if_false] at hu' ⊢
    exact h u' hu'

theorem laSubConv_sweep (s : PState) (now tm : ℚ) (h : laSubConv s) :
    laSubConv (cleanup_old_conversations s now tm) := by
  intro u' hu'
  simp only [cleanup_old_conversations] at hu' ⊢
  rw [klookup_filter_not_mem] at hu'
  rw [klookup_filter_not_mem]
  by_cases hm : u' ∈ ((s.last_activity.filter
      (fun p => decide (p.2 < now - tm * 60))).map Prod.fst)
  · simp [hm] at hu'
  · simp only [hm, if_false] at hu' ⊢
    exact h u' hu'

theorem laSubConv_process (s : PState) (u : Nat) (msg : String)
    (res : Except Unit String) (now tm t1 t2 t3 : ℚ) (h : laSubConv s) :
    laSubConv (process_message s u msg (fun _ _ => res) now tm t1 t2 t3).2 := by
  have h2 : laSubConv (get_conversation_history
      (cleanup_old_conversations s now tm) u).2 :=
    laSubConv_getHist _ u (laSubConv_sweep s now tm h)
  cases res with
  | error e => simpa [process_message] using h2
  | ok r =>
    simpa [process_message] using
      laSubConv_update _ u msg r t1 t2 t3 h2

theorem laSubConv_step (s : PState) (op : Op) (h : laSubConv s) :
    laSubConv (step s op) := by
  cases op with
  | getHist u => exact laSubConv_getHist s u h
  | append u um ar t1 t2 t3 => exact laSubConv_update s u um ar t1 t2 t3 h
  | clear u => exact laSubConv_clear s u h
  | sweep now tm => exact laSubConv_sweep s now tm h
  | process u msg res now tm t1 t2 t3 =>
      exact laSubConv_process s u msg res now tm t1 t2 t3 h

theorem laSubConv_foldl (ops : List Op) (s : PState) (h : laSubConv s) :
    laSubConv (ops.foldl step s) := by
  induction ops generalizing s with
  | nil => exact h
  | cons op rest ih => exact ih _ (laSubConv_step s op h)

/-! ### Claim C1 -/

/-- Claim C1, counterexample: the two maps are not kept in lockstep.
From the initial state, the single operation
`_get_conversation_history 0` produces a state in which user 0 is
present in the conversation-log map but absent from the last-activity
map, so the claimed if-and-only-if fails. -/
theorem C1_lockstep_counterexample :
    (klookup 0 (run [Op.getHist 0]).conversations).isSome = true ∧
    (klookup 0 (run [Op.getHist 0]).last_activity).isSome = false := by
  decide

/-- Claim C1 (amended): in every reachable state of the
`MessageProcessor`, a user identifier present in the last-activity map
is also present in the conversation-log map (no orphan activity
records).  The converse direction is false:
`_get_conversation_history` creates a conversation-log entry without a
last-activity entry. -/
theorem C1_last_activity_subset_conversations (ops : List Op) (u : Nat)
    (h : (klookup u (run ops).last_activity).isSome = true) :
    (klookup u (run ops).conversations).isSome = true :=
  laSubConv_foldl ops initState
    (fun u' hu' => by simp [initState, klookup] at hu') u h

/-- Witness for C1: after one `_update_conversation` for user 5, user 5
is in the last-activity map and hence in the conversation map. -/
theorem C1_witness :
    ((klookup 5 (run [Op.append 5 "a" "b" 0 0 0]).last_activity).isSome
      = true) ∧
    ((klookup 5 (run [Op.append 5 "a" "b" 0 0 0]).conversations).isSome
      = true) :=
  ⟨by decide,
   C1_last_activity_subset_conversations [Op.append 5 "a" "b" 0 0 0] 5
     (by decide)⟩

/-! ### Claim C2 -/

/-- Claim C2, counterexample: the failure paths do not share a single
apology string.  On the same input, a raised generation call and an
empty generation yield different replies, so no one constant is
returned on all failure paths. -/
theorem C2_single_apology_counterexample :
    (generate_response (fun _ => GenOutcome.raised) "Hello" none ==
     generate_response (fun _ => GenOutcome.returned none) "Hello" none)
      = false := by
  decide

/-- Claim C2 (amended): every Gateway failure mode yields a fixed
apology string that does not depend on the prompt or the history — a
raised generation (which also covers a failure during context
construction, caught by the same handler) yields
`techDifficultiesMsg`, an absent or empty generation text yields
`emptyResponseMsg` — but the constants differ between failure modes,
so there is no single shared apology string. -/
theorem C2_fixed_apologies (prompt : String) (h : Option (List Exch)) :
    generate_response (fun _ => GenOutcome.raised) prompt h
      = techDifficultiesMsg ∧
    generate_response (fun _ => GenOutcome.returned none) prompt h
      = emptyResponseMsg ∧
    generate_response (fun _ => GenOutcome.returned (some "")) prompt h
      = emptyResponseMsg ∧
    (techDifficultiesMsg == emptyResponseMsg) = false ∧
    (techDifficultiesMsg == processErrorMsg) = false ∧
    (emptyResponseMsg == processErrorMsg) = false := by
  refine ⟨rfl, rfl, ?_, by decide, by decide, by decide⟩
  simp [generate_response]

/-! ### Helper lemmas about the operations -/

/-- After `_get_conversation_history s u`, user `u`'s stored log is
exactly the returned history. -/
theorem getHist_lookup (s : PState) (u : Nat) :
    klookup u (get_conversation_history s u).2.conversations =
      some (get_conversation_history s u).1 := by
  cases hc : klookup u s.conversations with
  | some l => simp [get_conversation_history, hc]
  | none =>
    simp only [get_conversation_history, hc]
    rw [klookup_append_of_none u _ _ hc]
    simp [klookup]

/-- `_get_conversation_history` does not touch the last-activity map. -/
theorem getHist_last_activity (s : PState) (u : Nat) :
    (get_conversation_history s u).2.last_activity = s.last_activity := by
  cases hc : klookup u s.conversations with
  | some l => simp [get_conversation_history, hc]
  | none => simp [get_conversation_history, hc]

/-- The sweep never creates a conversation entry. -/
theorem cleanup_lookup_none (s : PState) (now tm : ℚ) (u : Nat)
    (h : klookup u s.conversations = none) :
    klookup u (cleanup_old_conversations s now tm).conversations = none := by
  simp only [cleanup_old_conversations]
  rw [klookup_filter_not_mem]
  split <;> simp [h]

/-- ASCII lowercasing, the model of Python `str.lower()` used by the
repository's test `test_process_message_error`. -/
def lowerStr (s : String) : String := ⟨s.data.map Char.toLower⟩

/-- The lowercase apology of `process_message` contains the words
"error" and "try again". -/
theorem processErrorMsg_words :
    (∃ a b, lowerStr processErrorMsg = a ++ "error" ++ b) ∧
    (∃ a b, lowerStr processErrorMsg = a ++ "try again" ++ b) :=
  ⟨⟨"sorry, i encountered an ",
      " while processing your message. please try again.", by decide⟩,
   ⟨"sorry, i encountered an error while processing your message. please ",
      ".", by decide⟩⟩

/-! ### Claim C3 -/

/-- Claim C3: when the Model Gateway call raises, `process_message`
returns (rather than propagates) a reply whose lowercase form contains
the words "error" and "try again", and user `u`'s stored log equals the
history fetched just before the failing call — in particular it is the
empty log for a user absent from the conversation map beforehand. -/
theorem C3_process_gateway_raise (s : PState) (u : Nat) (msg : String)
    (client : String → List Exch → Except Unit String)
    (now tm t1 t2 t3 : ℚ)
    (hc : ∀ m h, client m h = Except.error ()) :
    (∃ a b, lowerStr (process_message s u msg client now tm t1 t2 t3).1
        = a ++ "error" ++ b) ∧
    (∃ a b, lowerStr (process_message s u msg client now tm t1 t2 t3).1
        = a ++ "try again" ++ b) ∧
    klookup u (process_message s u msg client now tm t1 t2 t3).2.conversations
      = some (get_conversation_history
          (cleanup_old_conversations s now tm) u).1 ∧
    (klookup u s.conversations = none →
      klookup u (process_message s u msg client now tm t1 t2 t3).2.conversations
        = some []) := by
  have hr : process_message s u msg client now tm t1 t2 t3 =
      (processErrorMsg,
        (get_conversation_history (cleanup_old_conversations s now tm) u).2) := by
    simp [process_message, hc]
  rw [hr]
  refine ⟨processErrorMsg_words.1, processErrorMsg_words.2,
    getHist_lookup _ u, fun hnone => ?_⟩
  have h1 : klookup u (cleanup_old_conversations s now tm).conversations
      = none := cleanup_lookup_none s now tm u hnone
  have h2 := getHist_lookup (cleanup_old_conversations s now tm) u
  simp only [get_conversation_history, h1] at h2 ⊢
  exact h2

/-- A client that always raises, for the C3 witness. -/
def errClient : String → List Exch → Except Unit String :=
  fun _ _ => Except.error ()

/-- Witness for C3 at a fresh state, user 42, message "Hello". -/
theorem C3_witness :
    (∀ m h, errClient m h = Except.error ()) ∧
    ((∃ a b, lowerStr (process_message initState 42 "Hello" errClient 0 60 0 0 0).1
        = a ++ "error" ++ b) ∧
    (∃ a b, lowerStr (process_message initState 42 "Hello" errClient 0 60 0 0 0).1
        = a ++ "try again" ++ b) ∧
    klookup 42 (process_message initState 42 "Hello" errClient 0 60 0 0 0).2.conversations
      = some (get_conversation_history
          (cleanup_old_conversations initState 0 60) 42).1 ∧
    (klookup 42 initState.conversations = none →
      klookup 42 (process_message initState 42 "Hello" errClient 0 60 0 0 0).2.conversations
        = some [])) :=
  ⟨fun _ _ => rfl,
   C3_process_gateway_raise initState 42 "Hello" errClient 0 60 0 0 0
     (fun _ _ => rfl)⟩

/-! ### Claim C4 -/

theorem trimLog_eq_drop (l : List Exch) :
    trimLog l = l.drop (l.length - max_history) := by
  unfold trimLog
  split
  · rfl
  · next h =>
    have h0 : l.length - max_history = 0 := by omega
    rw [h0, List.drop_zero]

theorem take_append_take (a b : List Exch) (n : Nat) :
    (a ++ b.take n).take n = (a ++ b).take n := by
  rw [List.take_append_eq_append_take, List.take_append_eq_append_take,
    List.take_take]
  have hm : min (n - a.length) n = n - a.length :=
    Nat.min_eq_left (Nat.sub_le n a.length)
  rw [hm]

theorem trimLog_reverse_take (l : List Exch) :
    trimLog l = (l.reverse.take max_history).reverse := by
  rw [List.take_reverse, List.reverse_reverse, trimLog_eq_drop]

/-- Trimming an already-trimmed log after appending gives the same
result as trimming the untrimmed log: the trim only ever discards from
the oldest end. -/
theorem trimLog_trimLog_append (xs ys : List Exch) :
    trimLog (trimLog xs ++ ys) = trimLog (xs ++ ys) := by
  rw [trimLog_reverse_take xs, trimLog_reverse_take,
    trimLog_reverse_take (xs ++ ys)]
  rw [List.reverse_append, List.reverse_reverse, take_append_take,
    ← List.reverse_append]

/-- The arguments of one `_update_conversation` call: the two message
texts and the three `datetime.now()` readings. -/
structure ExchInput where
  user_message : String
  ai_response : String
  t1 : ℚ
  t2 : ℚ
  t3 : ℚ
deriving DecidableEq

/-- The two log entries one `_update_conversation` call appends. -/
def entriesOf (p : ExchInput) : List Exch :=
  [⟨Role.user, p.user_message, p.t1⟩, ⟨Role.assistant, p.ai_response, p.t2⟩]

/-- All log entries a sequence of `_update_conversation` calls appends,
in order. -/
def entriesOfAll (ps : List ExchInput) : List Exch :=
  ps.flatMap entriesOf

/-- A sequence of `_update_conversation` calls for one user. -/
def runAppends (u : Nat) (ps : List ExchInput) (s : PState) : PState :=
  ps.foldl (fun t p =>
    update_conversation t u p.user_message p.ai_response p.t1 p.t2 p.t3) s

theorem runAppends_log (u : Nat) (ps : List ExchInput) (s : PState)
    (es : List Exch)
    (h : (klookup u s.conversations).getD [] = trimLog es) :
    (klookup u (runAppends u ps s).conversations).getD []
      = trimLog (es ++ entriesOfAll ps) := by
  induction ps generalizing s es with
  | nil => simpa [runAppends, entriesOfAll] using h
  | cons p rest ih =>
    have hlog : (klookup u (update_conversation s u p.user_message
        p.ai_response p.t1 p.t2 p.t3).conversations).getD []
        = trimLog (es ++ entriesOf p) := by
      simp only [update_conversation, h]
      rw [klookup_kinsert_self]
      simp only [Option.getD_some]
      exact trimLog_trimLog_append es (entriesOf p)
    have hrest := ih _ (es ++ entriesOf p) hlog
    simpa [runAppends, entriesOfAll, List.append_assoc] using hrest

/-- Claim C4: starting from a fresh processor, after any sequence of
`_update_conversation` calls for user `u` whose total number of
appended entries reaches `max_history` (50), exactly 50 entries are
retained, and they are the 50 most recently appended entries in their
original relative order (the suffix of the full appended sequence). -/
theorem C4_trim_keeps_last_fifty (u : Nat) (ps : List ExchInput)
    (h : max_history ≤ (entriesOfAll ps).length) :
    (klookup u (runAppends u ps initState).conversations).isSome = true ∧
    (klookup u (runAppends u ps initState).conversations).getD []
      = (entriesOfAll ps).drop ((entriesOfAll ps).length - max_history) ∧
    ((klookup u (runAppends u ps initState).conversations).getD []).length
      = max_history := by
  have h0 : (klookup u initState.conversations).getD [] = trimLog [] := by
    simp [initState, klookup, trimLog]
  have hlog := runAppends_log u ps initState [] h0
  rw [List.nil_append] at hlog
  have hval : (klookup u (runAppends u ps initState).conversations).getD []
      = (entriesOfAll ps).drop ((entriesOfAll ps).length - max_history) := by
    rw [hlog, trimLog_eq_drop]
  have hlen : ((klookup u (runAppends u ps initState).conversations).getD
      []).length = max_history := by
    rw [hval, List.length_drop]
    omega
  refine ⟨?_, hval, hlen⟩
  cases hs : klookup u (runAppends u ps initState).conversations with
  | some l => rfl
  | none =>
    rw [hs] at hlen
    simp [max_history] at hlen

/-- Witness for C4: 25 calls appending ("a", "b") pairs retain exactly
the 50 appended entries. -/
theorem C4_witness :
    (max_history ≤
      (entriesOfAll (List.replicate 25 ⟨"a", "b", 0, 0, 0⟩)).length) ∧
    ((klookup 7 (runAppends 7 (List.replicate 25 ⟨"a", "b", 0, 0, 0⟩)
        initState).conversations).isSome = true ∧
    (klookup 7 (runAppends 7 (List.replicate 25 ⟨"a", "b", 0, 0, 0⟩)
        initState).conversations).getD []
      = (entriesOfAll (List.replicate 25 ⟨"a", "b", 0, 0, 0⟩)).drop
          ((entriesOfAll (List.replicate 25 ⟨"a", "b", 0, 0, 0⟩)).length
            - max_history) ∧
    ((klookup 7 (runAppends 7 (List.replicate 25 ⟨"a", "b", 0, 0, 0⟩)
        initState).conversations).getD []).length = max_history) :=
  ⟨by decide,
   C4_trim_keeps_last_fifty 7 (List.replicate 25 ⟨"a", "b", 0, 0, 0⟩)
     (by decide)⟩

/-! ### Claim C5 -/

theorem mem_users_to_remove (s : PState) (now tm : ℚ) (u : Nat) :
    (u ∈ (s.last_activity.filter
        (fun p => decide (p.2 < now - tm * 60))).map Prod.fst)
      ↔ ∃ t, (u, t) ∈ s.last_activity ∧ t < now - tm * 60 := by
  constructor
  · intro hu
    obtain ⟨p, hp, hpu⟩ := List.mem_map.mp hu
    obtain ⟨hpla, hpt⟩ := List.mem_filter.mp hp
    refine ⟨p.2, ?_, of_decide_eq_true hpt⟩
    have hpe : (u, p.2) = p := by
      cases p
      simp_all
    rw [hpe]
    exact hpla
  · rintro ⟨t, hm, ht⟩
    exact List.mem_map.mpr ⟨(u, t),
      List.mem_filter.mpr ⟨hm, decide_eq_true ht⟩, rfl⟩

theorem cleanup_la_lookup (s : PState) (now tm : ℚ) (u : Nat) :
    klookup u (cleanup_old_conversations s now tm).last_activity =
      if u ∈ (s.last_activity.filter
          (fun p => decide (p.2 < now - tm * 60))).map Prod.fst
      then none else klookup u s.last_activity := by
  simp only [cleanup_old_conversations]
  rw [klookup_filter_not_mem]

theorem cleanup_conv_lookup (s : PState) (now tm : ℚ) (u : Nat) :
    klookup u (cleanup_old_conversations s now tm).conversations =
      if u ∈ (s.last_activity.filter
          (fun p => decide (p.2 < now - tm * 60))).map Prod.fst
      then none else klookup u s.conversations := by
  simp only [cleanup_old_conversations]
  rw [klookup_filter_not_mem]

/-- Claim C5: for every state, every `now` and every configured timeout
`T ≥ 0` given in seconds, the constructor's seconds-to-minutes
conversion preserves the duration exactly
(`now - (T/60)·60 = now - T`), and the sweep removes exactly the
sessions whose last activity strictly precedes `now - T`, leaving every
other session's log and last-activity record unchanged.  The
last-activity map is assumed to have no duplicate keys, as a Python
dict cannot have any. -/
theorem C5_sweep_exact (s : PState) (now T : ℚ) (hT : 0 ≤ T)
    (hnd : (s.last_activity.map Prod.fst).Nodup) :
    (now - timeout_minutes_of T * 60 = now - T) ∧
    (∀ u t, klookup u s.last_activity = some t → t < now - T →
      klookup u (cleanup_old_conversations s now
          (timeout_minutes_of T)).last_activity = none ∧
      klookup u (cleanup_old_conversations s now
          (timeout_minutes_of T)).conversations = none) ∧
    (∀ u t, klookup u s.last_activity = some t → ¬ t < now - T →
      klookup u (cleanup_old_conversations s now
          (timeout_minutes_of T)).last_activity = some t ∧
      klookup u (cleanup_old_conversations s now
          (timeout_minutes_of T)).conversations
        = klookup u s.conversations) := by
  have hconv : timeout_minutes_of T * 60 = T :=
    div_mul_cancel₀ T (by norm_num : (60 : ℚ) ≠ 0)
  have hcut : now - timeout_minutes_of T * 60 = now - T := by rw [hconv]
  refine ⟨hcut, ?_, ?_⟩
  · intro u t hla ht
    have hu : u ∈ (s.last_activity.filter (fun p =>
        decide (p.2 < now - timeout_minutes_of T * 60))).map Prod.fst := by
      rw [mem_users_to_remove]
      exact ⟨t, mem_of_klookup_eq_some u s.last_activity t hla, by
        rw [hcut]; exact ht⟩
    rw [cleanup_la_lookup, if_pos hu, cleanup_conv_lookup, if_pos hu]
    exact ⟨rfl, rfl⟩
  · intro u t hla ht
    have hu : u ∉ (s.last_activity.filter (fun p =>
        decide (p.2 < now - timeout_minutes_of T * 60))).map Prod.fst := by
      intro hin
      obtain ⟨t', hmem', ht'⟩ := (mem_users_to_remove s now _ u).mp hin
      have heq : klookup u s.last_activity = some t' :=
        klookup_eq_some_of_mem_nodup u s.last_activity t' hnd hmem'
      rw [hla] at heq
      rw [hcut] at ht'
      exact ht (Option.some_injective _ heq ▸ ht')
    rw [cleanup_la_lookup, if_neg hu, cleanup_conv_lookup, if_neg hu]
    exact ⟨hla, rfl⟩

/-- A two-session state for the C5 witness: user 1 idle since time 0,
user 2 active at time 100. -/
def sweepExState : PState :=
  ⟨[(1, []), (2, [])], [(1, 0), (2, 100)]⟩

/-- Witness for C5 at `now = 100`, timeout 50 seconds: user 1
(activity at 0, older than 100 - 50) is removed; user 2 (activity at
100) is kept with its log unchanged. -/
theorem C5_witness :
    ((0 : ℚ) ≤ 50) ∧
    ((sweepExState.last_activity.map Prod.fst).Nodup) ∧
    (klookup 1 (cleanup_old_conversations sweepExState 100
        (timeout_minutes_of 50)).last_activity = none) ∧
    (klookup 2 (cleanup_old_conversations sweepExState 100
        (timeout_minutes_of 50)).last_activity = some 100) :=
  ⟨by norm_num, by decide,
   ((C5_sweep_exact sweepExState 100 50 (by norm_num) (by decide)).2.1
      1 0 (by decide) (by norm_num)).1,
   ((C5_sweep_exact sweepExState 100 50 (by norm_num) (by decide)).2.2
      2 100 (by decide) (by norm_num)).1⟩

/-! ### Claim C6 -/

/-- Spec-side rendering of the model context, following the spec's
words: for an empty history the raw prompt alone with no system
preamble; otherwise the fixed system instruction, then at most the last
10 history entries as role-tagged lines, then the new user text as a
"User:" line, then the trailing "Assistant:" cue, joined by newlines. -/
def contextSpec (current_prompt : String) (history : List Exch) : String :=
  if history.isEmpty then current_prompt
  else
    String.intercalate "\n"
      (systemPrompt :: ((history.reverse.take 10).reverse.map roleLine ++
        ["User: " ++ current_prompt, "Assistant:"]))

/-- Claim C6: `_build_context` agrees with the spec's description of
the context for every prompt and history — the raw prompt when the
history is absent or empty, and otherwise the system instruction, the
last 10 entries as role-tagged lines, the `User:` line, and the
`Assistant:` cue, joined by newlines. -/
theorem C6_build_context_spec (p : String) (h : List Exch) :
    build_context p (some h) = contextSpec p h ∧
    build_context p none = p := by
  refine ⟨?_, rfl⟩
  by_cases he : h = []
  · simp [build_context, contextSpec, he]
  · simp only [build_context, contextSpec]
    rw [if_neg he, if_neg (by simpa [List.isEmpty_iff] using he)]
    rw [List.take_reverse, List.reverse_reverse]

/-! ### Claim C7 -/

/-- Claim C7: `_update_conversation u um ar` on a fresh session stores
a two-entry log — entry 0 the user entry with content `um`, entry 1 the
assistant entry with content `ar`, in that order — and sets user `u`'s
last activity to the time of the call (`t3`, the `datetime.now()` taken
when `last_activity` is written). -/
theorem C7_append_exchange (s : PState) (u : Nat) (um ar : String)
    (t1 t2 t3 : ℚ) (h : klookup u s.conversations = none) :
    (get_conversation_history
        (update_conversation s u um ar t1 t2 t3) u).1
      = [⟨Role.user, um, t1⟩, ⟨Role.assistant, ar, t2⟩] ∧
    klookup u (update_conversation s u um ar t1 t2 t3).last_activity
      = some t3 := by
  have hlog : klookup u
      (update_conversation s u um ar t1 t2 t3).conversations
      = some [⟨Role.user, um, t1⟩, ⟨Role.assistant, ar, t2⟩] := by
    simp only [update_conversation, h, Option.getD_none]
    rw [klookup_kinsert_self]
    congr 1
  constructor
  · simp [get_conversation_history, hlog]
  · simp only [update_conversation]
    exact klookup_kinsert_self u t3 s.last_activity

/-- Witness for C7: user 3 on a fresh processor, exchange
("hi", "hello"). -/
theorem C7_witness :
    (klookup 3 initState.conversations = none) ∧
    ((get_conversation_history
        (update_conversation initState 3 "hi" "hello" 0 0 1) 3).1
      = [⟨Role.user, "hi", 0⟩, ⟨Role.assistant, "hello", 0⟩] ∧
    klookup 3 (update_conversation initState 3 "hi" "hello" 0 0 1).last_activity
      = some 1) :=
  ⟨by decide, C7_append_exchange initState 3 "hi" "hello" 0 0 1 (by decide)⟩

/-! ### Claim C8 -/

/-- Claim C8, counterexample: after `_get_conversation_history` for the
never-seen user 7, the returned history is empty and user 7 is in the
conversation map, but user 7 is not in the last-activity map, so 7 is
not a known session in the claimed sense of a user id associated with
both a log and a `lastActivityAt` timestamp. -/
theorem C8_known_session_counterexample :
    ((get_conversation_history initState 7).1 = ([] : List Exch)) ∧
    (kmem 7 (get_conversation_history initState 7).2.conversations = true) ∧
    (kmem 7 (get_conversation_history initState 7).2.last_activity = false) := by
  decide

/-- Claim C8 (amended): for every never-seen user `u`,
`_get_conversation_history u` returns an empty sequence and never
fails, and afterwards `u` is known to the conversation-log map with an
empty log; but no last-activity record is created, so `u` is not a full
session in the both-maps sense. -/
theorem C8_get_history_fresh (s : PState) (u : Nat)
    (h : klookup u s.conversations = none) :
    (get_conversation_history s u).1 = [] ∧
    klookup u (get_conversation_history s u).2.conversations = some [] ∧
    (get_conversation_history s u).2.last_activity = s.last_activity := by
  refine ⟨?_, ?_, getHist_last_activity s u⟩
  · simp [get_conversation_history, h]
  · simp only [get_conversation_history, h]
    rw [klookup_append_of_none u _ _ h]
    simp [klookup]

/-- Witness for C8 (amended) at a fresh processor, user 9. -/
theorem C8_witness :
    (klookup 9 initState.conversations = none) ∧
    ((get_conversation_history initState 9).1 = [] ∧
    klookup 9 (get_conversation_history initState 9).2.conversations
      = some [] ∧
    (get_conversation_history initState 9).2.last_activity
      = initState.last_activity) :=
  ⟨by decide, C8_get_history_fresh initState 9 (by decide)⟩

/-! ### Claim C9 -/

/-- Claim C9: `get_conversation_stats` on a state with zero active
sessions returns 0 active users, 0 total messages and average 0, with
no division fault (the average is guarded and the function is a pure
read). -/
theorem C9_stats_zero (s : PState) (h : s.conversations.length = 0) :
    get_conversation_stats s = (0, 0, (0 : ℚ)) := by
  have he : s.conversations = [] := List.length_eq_zero.mp h
  simp [get_conversation_stats, he]

/-- Witness for C9 at the fresh processor state. -/
theorem C9_witness :
    initState.conversations.length = 0 ∧
    get_conversation_stats initState = (0, 0, (0 : ℚ)) :=
  ⟨rfl, C9_stats_zero initState rfl⟩

/-! ### Claim C10 -/

/-- Claim C10: a user `u` with no last-activity record (as produced by
`_get_conversation_history` alone, which never writes `last_activity`)
is never removed by the sweep, for every `now` and every timeout: the
sweep leaves `u`'s log entry unchanged and creates no activity record;
`_get_conversation_history` itself keeps `u` absent from
`last_activity`; and an explicit `clear_conversation u` does remove
`u`'s log. -/
theorem C10_no_activity_never_swept (s : PState) (u : Nat) (now tm : ℚ)
    (h : klookup u s.last_activity = none) :
    klookup u (cleanup_old_conversations s now tm).conversations
      = klookup u s.conversations ∧
    klookup u (cleanup_old_conversations s now tm).last_activity = none ∧
    klookup u ((get_conversation_history s u).2).last_activity = none ∧
    klookup u (clear_conversation s u).conversations = none := by
  have hnot : u ∉ (s.last_activity.filter
      (fun p => decide (p.2 < now - tm * 60))).map Prod.fst := by
    intro hin
    obtain ⟨t, hmem, _⟩ := (mem_users_to_remove s now tm u).mp hin
    rw [klookup_eq_none_iff] at h
    exact h (List.mem_map_of_mem Prod.fst hmem)
  refine ⟨?_, ?_, ?_, ?_⟩
  · rw [cleanup_conv_lookup, if_neg hnot]
  · rw [cleanup_la_lookup, if_neg hnot]
    exact h
  · rw [getHist_last_activity]
    exact h
  · simp only [clear_conversation]
    rw [klookup_kerase]
    simp

/-- A state whose only session (user 4) was created by
`_get_conversation_history` alone: a log entry, no activity record. -/
def orphanExState : PState := ⟨[(4, [])], []⟩

/-- Witness for C10: user 4's log survives a sweep at `now = 1000`
with timeout 0. -/
theorem C10_witness :
    (klookup 4 orphanExState.last_activity = none) ∧
    (klookup 4 (cleanup_old_conversations orphanExState 1000 0).conversations
      = klookup 4 orphanExState.conversations ∧
    klookup 4 (cleanup_old_conversations orphanExState 1000 0).last_activity
      = none ∧
    klookup 4 ((get_conversation_history orphanExState 4).2).last_activity
      = none ∧
    klookup 4 (clear_conversation orphanExState 4).conversations = none) :=
  ⟨by decide, C10_no_activity_never_swept orphanExState 4 1000 0 (by decide)⟩

end TgBot
